import Mathlib

/-!
Verification of the expense-tracker application (React + Supabase).

The client components and the SQL migrations are shallowly embedded:
tables become lists of rows, JavaScript records (`Record<string, number>`
etc.) become functions `key → Option value` (a missing key is `none`,
matching JS `undefined`), and the Supabase query builders become list
filters / maps / sorts.  Amounts are modelled as `Int` (the claims are
about which rows enter an aggregate, not about float rounding); ISO date
strings `yyyy-MM-dd` are modelled as `Nat` in `yyyymmdd` encoding, so the
backend's ordering on the `date` column is the numeric order and the
`yyyy-MM` month key of a date is `date / 100`.
-/

/-! ### JS record model -/

/-- JS record lookup-or-insert model: a record is a function to `Option`;
`none` is JS `undefined`. -/
def recSet {κ α : Type} [DecidableEq κ] (m : κ → Option α) (k : κ) (v : α) :
    κ → Option α :=
  fun k2 => if k2 = k then some v else m k2

/-- The empty JS record. -/
def emptyRec {κ α : Type} : κ → Option α := fun _ => none

/-- JS `x || 0` applied to a possibly-undefined numeric field. -/
def orZero : Option Int → Int
  | none => 0
  | some v => v

/-- SQL equality `auth.uid() = user_id` on a nullable column: comparison
with NULL is not true. -/
def sqlEqUid (uid : String) (user_id : Option String) : Bool :=
  match user_id with
  | some u => u == uid
  | none => false

/-- JS string truthiness for a nullable string field (`null`, `undefined`
and `""` are falsy). -/
def jsTruthyStr : Option String → Bool
  | none => false
  | some s => !(s == "")

/-- JS `String.prototype.trim`: strip leading and trailing whitespace. -/
def jsTrim (s : String) : String :=
  ⟨((s.data.dropWhile Char.isWhitespace).reverse.dropWhile Char.isWhitespace).reverse⟩

/-! ### Data model (tables, per the migrations) -/

/-- A row of the `categories` table. -/
structure Category where
  id : String
  name : String
  icon : String
  is_default : Bool
  user_id : Option String
deriving Repr, DecidableEq

/-- A row of the `expenses` table (joined category omitted; the claims
look it up separately where needed). -/
structure Expense where
  id : String
  amount : Int
  description : String
  date : Nat
  category_id : String
  user_id : Option String
  is_deleted : Bool
  deleted_at : Option Nat
deriving Repr, DecidableEq

/-- A row of the `budgets` table. -/
structure BudgetRow where
  category_id : String
  user_id : String
  amount : Int
deriving Repr, DecidableEq

/-- A row of the `activity_log` table (singular; migration
`add activity log table`): `expense_id`, `action`, `timestamp`. -/
structure ActivityLogRow where
  id : String
  expense_id : String
  action : String
  timestamp : Nat
  user_id : String
deriving Repr, DecidableEq

/-- A row of the `activity_logs` table (plural; migration
`gentle_snowflake`): `entity_type`/`entity_id` plus a JSON `details`
payload, flattened here into its three fields. -/
structure ActivityLogsRow where
  action : String
  entity_type : String
  entity_id : String
  details_amount : Int
  details_description : String
  details_category : Option String
  user_id : String
deriving Repr, DecidableEq

/-- The backend state: one list per table. -/
structure BackendState where
  expenses : List Expense
  categories : List Category
  budgets : List BudgetRow
  activity_log : List ActivityLogRow
  activity_logs : List ActivityLogsRow
deriving Repr, DecidableEq

/-! ### BudgetManager.handleSaveBudgets -/

/-- Model of `BudgetManager.handleSaveBudgets`: delete every `budgets` row of the
acting user, then insert one row per entry of the local
`Record<string, number>` state whose amount is strictly positive
(`.filter(([_, amount]) => amount > 0)`); the insert request is only
issued when the list is non-empty. The local record is passed as its
`Object.entries` list. -/
def handleSaveBudgets (db : List BudgetRow) (uid : String)
    (budgetsState : List (String × Int)) : List BudgetRow :=
  let afterDelete := db.filter (fun b => !(b.user_id == uid))
  let budgetsToInsert := (budgetsState.filter (fun p => decide (p.2 > 0))).map
    (fun p => { category_id := p.1, amount := p.2, user_id := uid })
  if budgetsToInsert.length > 0 then afterDelete ++ budgetsToInsert else afterDelete

/-! ### Category RLS policies (migration `jolly_valley`) and CategoryManager -/

/-- The `USING` predicate of policy "Update own categories":
`auth.uid() = user_id AND NOT is_default`. -/
def categoriesUpdatePolicyUsing (uid : String) (c : Category) : Bool :=
  sqlEqUid uid c.user_id && !c.is_default

/-- The `WITH CHECK` predicate of policy "Update own categories" (same
predicate as its `USING` clause). -/
def categoriesUpdatePolicyWithCheck (uid : String) (c : Category) : Bool :=
  sqlEqUid uid c.user_id && !c.is_default

/-- The `USING` predicate of policy "Delete own categories". -/
def categoriesDeletePolicyUsing (uid : String) (c : Category) : Bool :=
  sqlEqUid uid c.user_id && !c.is_default

/-- The `CategoryManager` view renders the Edit button only under
`!category.is_default && category.user_id` (JS truthiness). -/
def showEditButton (c : Category) : Bool :=
  !c.is_default && jsTruthyStr c.user_id

/-! ### Expense insert trigger (migration `scarlet_morning`) -/

/-- A `NEW` row arriving at the `expenses` table before-insert trigger;
the client may or may not have supplied `user_id`. -/
structure NewExpense where
  amount : Int
  description : String
  date : Nat
  category_id : String
  user_id : Option String
deriving Repr, DecidableEq

/-- Trigger function `public.set_user_id`:
`NEW.user_id := auth.uid(); RETURN NEW;`. -/
def set_user_id (authUid : String) (new : NewExpense) : NewExpense :=
  { new with user_id := some authUid }

/-- The `WITH CHECK` predicate of policy "Users can insert their own
expenses": `auth.uid() = user_id`, evaluated on the row as stored. -/
def expensesInsertWithCheck (authUid : String) (row : NewExpense) : Bool :=
  sqlEqUid authUid row.user_id

/-- Server-side insert path for `expenses`: the before-insert trigger
rewrites `user_id`, then the insert policy is checked on the resulting
row. -/
def insertExpenseServer (db : List NewExpense) (authUid : String)
    (clientRow : NewExpense) : List NewExpense :=
  let row := set_user_id authUid clientRow
  if expensesInsertWithCheck authUid row then db ++ [row] else db

/-! ### Backend ordering (`order(col, { ascending: false })`) -/

/-- Insert an element into a list kept in descending key order. -/
def insDescBy {α : Type} (key : α → Nat) (a : α) : List α → List α
  | [] => [a]
  | x :: xs => if key x ≤ key a then a :: x :: xs else x :: insDescBy key a xs

/-- Sort a list into descending key order (models the backend's
`order(col, { ascending: false })`). -/
def sortDescBy {α : Type} (key : α → Nat) : List α → List α
  | [] => []
  | x :: xs => insDescBy key x (sortDescBy key xs)

/-! ### ExpenseList.fetchExpenses -/

/-- The constant `ITEMS_PER_PAGE` in `ExpenseList`. -/
def ITEMS_PER_PAGE : Nat := 10

/-- The paginated expenses query of `ExpenseList.fetchExpenses` before
`range`: filter `date` into the inclusive `[startDate, endDate]` range,
filter by category when one is selected (`selectedCategory !== 'all'` is
`some c` here), order by date descending. -/
def expensesQueryOrdered (db : List Expense) (startDate endDate : Nat)
    (selectedCategory : Option String) : List Expense :=
  sortDescBy (fun e => e.date)
    (db.filter (fun e =>
      decide (startDate ≤ e.date) && decide (e.date ≤ endDate) &&
      (match selectedCategory with
       | none => true
       | some c => e.category_id == c)))

/-- Model of the `ExpenseList.fetchExpenses` page fetch: `from = (currentPage - 1) *
ITEMS_PER_PAGE`, `to = from + ITEMS_PER_PAGE - 1`, `range(from, to)`
(both ends inclusive, so `ITEMS_PER_PAGE` rows starting at `from`). -/
def fetchExpensesPage (db : List Expense) (startDate endDate : Nat)
    (selectedCategory : Option String) (currentPage : Nat) : List Expense :=
  ((expensesQueryOrdered db startDate endDate selectedCategory).drop
    ((currentPage - 1) * ITEMS_PER_PAGE)).take ITEMS_PER_PAGE

/-- Model of the `ExpenseList.fetchExpenses` page-count update: `if (count) {
setTotalPages(Math.ceil(count / ITEMS_PER_PAGE)) }` — a falsy (zero)
count leaves the previous value in place. -/
def updateTotalPages (prev : Nat) (count : Nat) : Nat :=
  if count ≠ 0 then (count + ITEMS_PER_PAGE - 1) / ITEMS_PER_PAGE else prev

/-- Projection of the current-month totals query
(`select('amount, category_id')`). -/
structure MonthExpenseRow where
  amount : Int
  category_id : String
deriving Repr, DecidableEq

/-- The separate unpaginated current-month query of
`ExpenseList.fetchExpenses` (also issued, with the same shape, by
`BudgetPieChart.fetchBudgetsAndExpenses`): `date` in the inclusive
`[monthStart, today]` range and `is_deleted = false`. -/
def monthExpensesQuery (db : List Expense) (monthStart today : Nat) :
    List MonthExpenseRow :=
  (db.filter (fun e =>
    decide (monthStart ≤ e.date) && decide (e.date ≤ today) &&
    (e.is_deleted == false))).map (fun e => ⟨e.amount, e.category_id⟩)

/-- The `reduce` in `ExpenseList.fetchExpenses` building
`categoryTotals`: `acc[cid] = (acc[cid] || 0) + amount`. -/
def accumulateCategoryTotals (rows : List MonthExpenseRow)
    (acc : String → Option Int) : String → Option Int :=
  rows.foldl
    (fun acc e => recSet acc e.category_id (orZero (acc e.category_id) + e.amount))
    acc

/-- The `categoryTotals` state set by `ExpenseList.fetchExpenses`. -/
def categoryTotalsState (db : List Expense) (monthStart today : Nat) :
    String → Option Int :=
  accumulateCategoryTotals (monthExpensesQuery db monthStart today) emptyRec

/-- Model of `ExpenseList.isOverBudget`: `budget && total > budget`, with
`budget = budgets[categoryId]` (undefined and `0` are both falsy) and
`total = categoryTotals[categoryId] || 0`. -/
def isOverBudget (budgets categoryTotals : String → Option Int)
    (categoryId : String) : Bool :=
  let total := orZero (categoryTotals categoryId)
  match budgets categoryId with
  | none => false
  | some b => if b == 0 then false else decide (total > b)

/-! ### ExpenseList.handleDelete and ActivityLog -/

/-- The soft-delete update of `ExpenseList.handleDelete`:
`update({ is_deleted: true, deleted_at: now }).eq('id', expense.id)`. -/
def softDeleteUpdate (expenses : List Expense) (targetId : String)
    (now : Nat) : List Expense :=
  expenses.map (fun e =>
    if e.id == targetId then { e with is_deleted := true, deleted_at := some now }
    else e)

/-- Model of `ExpenseList.handleDelete`: soft-delete the targeted row, then insert
the delete record into the `activity_logs` (plural) table.
`categoryName` is the joined `expense.category.name`. -/
def handleDelete (st : BackendState) (expense : Expense)
    (categoryName : String) (authUid : String) (now : Nat) : BackendState :=
  { st with
    expenses := softDeleteUpdate st.expenses expense.id now,
    activity_logs := st.activity_logs ++
      [{ action := "delete", entity_type := "expense",
         entity_id := expense.id, details_amount := expense.amount,
         details_description := expense.description,
         details_category := some categoryName, user_id := authUid }] }

/-- Model of `ActivityLog.fetchActivities`: select from the `activity_log`
(singular) table, ordered by `timestamp` descending. -/
def fetchActivities (st : BackendState) : List ActivityLogRow :=
  sortDescBy (fun a => a.timestamp) st.activity_log

/-! ### ExpenseForm.handleSubmit and CategoryManager.handleAddCategory -/

/-- The local state of `ExpenseForm` (all four fields are uncontrolled
text inputs, held as strings). -/
structure ExpenseFormState where
  amount : String
  description : String
  categoryId : String
  date : String
deriving Repr, DecidableEq

/-- Numeric parse of the amount field, abstracting JS `parseFloat` under
the `Int`-valued amount model. -/
def parseAmount (s : String) : Int := (s.toInt?).getD 0

/-- Parse of a `yyyy-MM-dd` form date into the `yyyymmdd` encoding. -/
def parseDate (s : String) : Nat :=
  (s.data.filter Char.isDigit).foldl (fun n c => n * 10 + (c.toNat - 48)) 0

/-- Model of `ExpenseForm.handleSubmit`: the validation guard
`if (!amount || !categoryId || !date)` sets an error and returns before
any request; otherwise the expense is inserted (the server trigger
stamps `user_id`) followed by the add record in `activity_logs`.
Returns the backend state and the error message state. -/
def expenseFormHandleSubmit (st : BackendState) (authUid : String)
    (form : ExpenseFormState) (newId : String) :
    BackendState × Option String :=
  if form.amount == "" || form.categoryId == "" || form.date == "" then
    (st, some "Please fill in all required fields")
  else
    let expenseRow : Expense :=
      { id := newId, amount := parseAmount form.amount,
        description := form.description, date := parseDate form.date,
        category_id := form.categoryId, user_id := some authUid,
        is_deleted := false, deleted_at := none }
    let selectedCategory := st.categories.find? (fun c => c.id == form.categoryId)
    let logRow : ActivityLogsRow :=
      { action := "add", entity_type := "expense", entity_id := newId,
        details_amount := parseAmount form.amount,
        details_description := form.description,
        details_category := selectedCategory.map (fun c => c.name),
        user_id := authUid }
    ({ st with expenses := st.expenses ++ [expenseRow],
               activity_logs := st.activity_logs ++ [logRow] }, none)

/-- Model of `CategoryManager.handleAddCategory`: the validation guard
`if (!newCategoryName.trim() || !newCategoryIcon.trim())` sets an error
and returns before any request; otherwise the trimmed category is
inserted with `is_default: false` and the acting user as owner. -/
def handleAddCategory (st : BackendState) (authUid : String)
    (newCategoryName newCategoryIcon : String) (newId : String) :
    BackendState × Option String :=
  if (jsTrim newCategoryName == "") || (jsTrim newCategoryIcon == "") then
    (st, some "Please fill in all fields")
  else
    ({ st with categories := st.categories ++
        [{ id := newId, name := jsTrim newCategoryName,
           icon := jsTrim newCategoryIcon, is_default := false,
           user_id := some authUid }] }, none)

/-! ### BudgetPieChart.fetchBudgetsAndExpenses -/

/-- One value of the `MonthlyData` record built by `BudgetPieChart`. -/
structure ChartEntry where
  spent : Int
  budget : Int
deriving Repr, DecidableEq

/-- Initialisation pass of `BudgetPieChart.fetchBudgetsAndExpenses`:
`data[b.category_id] = { budget: b.amount, spent: 0 }` for each fetched
budget row. -/
def initChartData (budgetRows : List BudgetRow) :
    String → Option ChartEntry :=
  budgetRows.foldl
    (fun acc b => recSet acc b.category_id { budget := b.amount, spent := 0 })
    emptyRec

/-- Accumulation pass of `BudgetPieChart.fetchBudgetsAndExpenses`: each
current-month non-deleted expense adds its amount to `spent`,
initialising the entry with `{ budget: 0, spent: 0 }` when absent. -/
def addExpensesToChart (rows : List MonthExpenseRow)
    (data : String → Option ChartEntry) : String → Option ChartEntry :=
  rows.foldl
    (fun acc e =>
      let cur := match acc e.category_id with
        | some v => v
        | none => { budget := 0, spent := 0 }
      recSet acc e.category_id { cur with spent := cur.spent + e.amount })
    data

/-- The `monthlyData` state set by
`BudgetPieChart.fetchBudgetsAndExpenses` (its expense query has the same
shape as the month query of `ExpenseList`). -/
def chartMonthlyData (budgetRows : List BudgetRow) (db : List Expense)
    (monthStart monthEnd : Nat) : String → Option ChartEntry :=
  addExpensesToChart (monthExpensesQuery db monthStart monthEnd)
    (initChartData budgetRows)

/-- The `spent` figure the chart reads for a category (0 when the
category has no entry). -/
def chartSpent (data : String → Option ChartEntry) (cid : String) : Int :=
  match data cid with
  | none => 0
  | some v => v.spent

/-! ### ExpenseStats.fetchMonthlyStats -/

/-- Projection of the statistics query
(`select('amount, date, category_id, categories (name)')`). -/
structure StatsRow where
  amount : Int
  date : Nat
  category_id : String
  category_name : String
deriving Repr, DecidableEq

/-- The trailing-12-months statistics query of
`ExpenseStats.fetchMonthlyStats`: `date` in the inclusive window, ordered
descending — and no `is_deleted` filter.  `catName` is the joined
`categories(name)` lookup. -/
def statsQueryResult (db : List Expense) (catName : String → String)
    (startDate endDate : Nat) : List StatsRow :=
  sortDescBy (fun r => r.date)
    ((db.filter (fun e =>
        decide (startDate ≤ e.date) && decide (e.date ≤ endDate))).map
      (fun e => ⟨e.amount, e.date, e.category_id, catName e.category_id⟩))

/-- Model of `format(parseISO(expense.date), 'yyyy-MM')` under the `yyyymmdd`
encoding. -/
def monthKey (date : Nat) : Nat := date / 100

/-- One value of the `monthlyData` record of `ExpenseStats`: the month
total and the per-category `{ name, amount }` breakdown. -/
structure MonthlyStats where
  total : Int
  categories : String → Option (String × Int)

/-- One step of the `forEach` in `ExpenseStats.fetchMonthlyStats`:
initialise the month entry if absent, add the amount to the month total,
initialise the category entry if absent, add the amount to the category
breakdown. -/
def statsStep (md : Nat → Option MonthlyStats) (e : StatsRow) :
    Nat → Option MonthlyStats :=
  let k := monthKey e.date
  let cur := match md k with
    | some s => s
    | none => { total := 0, categories := emptyRec }
  let cur2 := { cur with total := cur.total + e.amount }
  let curCat := match cur2.categories e.category_id with
    | some p => p
    | none => (e.category_name, 0)
  let cur3 := { cur2 with
    categories := recSet cur2.categories e.category_id
      (curCat.1, curCat.2 + e.amount) }
  recSet md k cur3

/-- The `monthlyData` record built by
`ExpenseStats.fetchMonthlyStats`. -/
def fetchMonthlyStatsData (db : List Expense) (catName : String → String)
    (startDate endDate : Nat) : Nat → Option MonthlyStats :=
  (statsQueryResult db catName startDate endDate).foldl statsStep emptyRec

/-- The total displayed for a month (0 when the month has no entry). -/
def monthTotal (md : Nat → Option MonthlyStats) (m : Nat) : Int :=
  match md m with
  | none => 0
  | some s => s.total

/-- The per-category amount displayed inside a month (0 when absent). -/
def monthCatAmount (md : Nat → Option MonthlyStats) (m : Nat)
    (cid : String) : Int :=
  match md m with
  | none => 0
  | some s =>
    match s.categories cid with
    | none => 0
    | some p => p.2

/-- Sum of the amounts of a list of expenses. -/
def sumAmounts (l : List Expense) : Int := (l.map (fun e => e.amount)).sum

/-! ### Concrete sample data for witnesses and counterexamples -/

/-- A sample default category. -/
def exDefaultCategory : Category :=
  { id := "groceries", name := "Groceries", icon := "shopping-cart",
    is_default := true, user_id := none }

/-- A sample expense row. -/
def exExpense : Expense :=
  { id := "e1", amount := 500, description := "weekly shop",
    date := 20250301, category_id := "groceries", user_id := some "u1",
    is_deleted := false, deleted_at := none }

/-- A second sample expense row. -/
def exExpense2 : Expense :=
  { id := "e2", amount := 700, description := "top-up",
    date := 20250305, category_id := "groceries", user_id := some "u1",
    is_deleted := false, deleted_at := none }

/-- A sample backend state: two expenses and the `activity_log` row the
creation trigger wrote for the first of them. -/
def exState : BackendState :=
  { expenses := [exExpense, exExpense2],
    categories := [exDefaultCategory],
    budgets := [{ category_id := "groceries", user_id := "u1", amount := 1000 }],
    activity_log :=
      [{ id := "l1", expense_id := "e1", action := "add", timestamp := 1,
         user_id := "u1" }],
    activity_logs := [] }

/-- A budgets record holding a persisted zero-amount budget row for
"groceries" (the `budgets` table only requires `amount >= 0`). -/
def cexBudgets : String → Option Int := recSet emptyRec "groceries" 0

/-- Month totals where "groceries" has 5 of undeleted spending. -/
def cexTotals : String → Option Int := recSet emptyRec "groceries" 5

/-! ## Helper lemmas -/

theorem insDescBy_perm {α : Type} (key : α → Nat) (a : α) (l : List α) :
    (insDescBy key a l).Perm (a :: l) := by
  induction l with
  | nil => exact List.Perm.refl _
  | cons x xs ih =>
    unfold insDescBy
    split
    · exact List.Perm.refl _
    · exact (ih.cons x).trans (List.Perm.swap a x xs)

theorem sortDescBy_perm {α : Type} (key : α → Nat) (l : List α) :
    (sortDescBy key l).Perm l := by
  induction l with
  | nil => exact List.Perm.refl _
  | cons x xs ih => exact (insDescBy_perm key x _).trans (ih.cons x)

theorem handleSaveBudgets_eq (db : List BudgetRow) (uid : String)
    (st : List (String × Int)) :
    handleSaveBudgets db uid st
      = db.filter (fun b => !(b.user_id == uid))
        ++ (st.filter (fun p => decide (p.2 > 0))).map
            (fun p => { category_id := p.1, amount := p.2, user_id := uid }) := by
  unfold handleSaveBudgets
  dsimp only
  split
  · rfl
  · next h =>
    have h0 : (st.filter (fun p => decide (p.2 > 0))).map
        (fun p => ({ category_id := p.1, user_id := uid, amount := p.2 } : BudgetRow)) = [] :=
      List.eq_nil_of_length_eq_zero (Nat.eq_zero_of_not_pos h)
    rw [h0, List.append_nil]

/-! ## C2: budget save is a full replacement -/

/-- C2: saving budgets fully replaces the acting user's budget set: the
resulting rows of that user are exactly one insert per locally edited
category with a strictly positive amount (zero/blank entries are
dropped), rows of other users are untouched, and — the local state being
a JS record, its keys distinct — the result holds at most one row per
category. -/
theorem budget_save_full_replacement (db : List BudgetRow) (uid : String)
    (st : List (String × Int)) (hkeys : (st.map Prod.fst).Nodup) :
    ((handleSaveBudgets db uid st).filter (fun b => b.user_id == uid)
        = (st.filter (fun p => decide (0 < p.2))).map
            (fun p => { category_id := p.1, user_id := uid, amount := p.2 }))
    ∧ ((handleSaveBudgets db uid st).filter (fun b => !(b.user_id == uid))
        = db.filter (fun b => !(b.user_id == uid)))
    ∧ (((handleSaveBudgets db uid st).filter
          (fun b => b.user_id == uid)).map (fun b => b.category_id)).Nodup := by
  have h1 : (handleSaveBudgets db uid st).filter (fun b => b.user_id == uid)
      = (st.filter (fun p => decide (0 < p.2))).map
          (fun p => { category_id := p.1, user_id := uid, amount := p.2 }) := by
    rw [handleSaveBudgets_eq, List.filter_append]
    rw [List.filter_filter]
    have hdrop : db.filter (fun b => (b.user_id == uid) && !(b.user_id == uid)) = [] := by
      apply List.filter_eq_nil_iff.mpr
      intro b _
      simp
    rw [hdrop, List.nil_append, List.filter_map]
    have hkeep : (st.filter (fun p => decide (p.2 > 0))).filter
        ((fun b : BudgetRow => b.user_id == uid) ∘
          (fun p : String × Int =>
            ({ category_id := p.1, amount := p.2, user_id := uid } : BudgetRow)))
        = st.filter (fun p => decide (p.2 > 0)) := by
      apply List.filter_eq_self.mpr
      intro p _
      simp [Function.comp]
    rw [hkeep]
  refine ⟨h1, ?_, ?_⟩
  · rw [handleSaveBudgets_eq, List.filter_append]
    rw [List.filter_filter]
    have hkeep : db.filter (fun b => !(b.user_id == uid) && !(b.user_id == uid))
        = db.filter (fun b => !(b.user_id == uid)) := by
      apply List.filter_congr
      intro b _
      cases h : b.user_id == uid <;> simp [h]
    rw [hkeep, List.filter_map]
    have hdrop : (st.filter (fun p => decide (p.2 > 0))).filter
        ((fun b : BudgetRow => !(b.user_id == uid)) ∘
          (fun p : String × Int =>
            ({ category_id := p.1, amount := p.2, user_id := uid } : BudgetRow)))
        = [] := by
      apply List.filter_eq_nil_iff.mpr
      intro p _
      simp [Function.comp]
    rw [hdrop, List.map_nil, List.append_nil]
  · rw [h1, List.map_map]
    have : ((fun b : BudgetRow => b.category_id) ∘
        (fun p : String × Int =>
          ({ category_id := p.1, user_id := uid, amount := p.2 } : BudgetRow)))
        = Prod.fst := rfl
    rw [this]
    exact hkeys.sublist ((List.filter_sublist st).map Prod.fst)

/-- C2 witness: a concrete save with one positive, one zero and one
negative-free entry, against a table holding rows of two users. -/
theorem budget_save_full_replacement_witness :
    (([("groceries", (1000 : Int)), ("travel", 0)].map Prod.fst).Nodup)
    ∧ ((handleSaveBudgets
          [{ category_id := "groceries", user_id := "u1", amount := 5 },
           { category_id := "travel", user_id := "u2", amount := 7 }] "u1"
          [("groceries", (1000 : Int)), ("travel", 0)]).filter
            (fun b => b.user_id == "u1")
        = ([("groceries", (1000 : Int)), ("travel", 0)].filter
            (fun p => decide (0 < p.2))).map
            (fun p => { category_id := p.1, user_id := "u1", amount := p.2 })) := by
  constructor
  · decide
  · exact (budget_save_full_replacement _ "u1" _ (by decide)).1

/-! ## C4: default categories cannot be mutated -/

/-- C4: on every default category row the `USING` and `WITH CHECK`
predicates of the "Update own categories" and "Delete own categories"
policies (`auth.uid() = user_id AND NOT is_default`) evaluate to false
for every acting user, and the `CategoryManager` UI shows no Edit button
for it. -/
theorem default_category_immutable (uid : String) (c : Category)
    (hdef : c.is_default = true) :
    categoriesUpdatePolicyUsing uid c = false
    ∧ categoriesUpdatePolicyWithCheck uid c = false
    ∧ categoriesDeletePolicyUsing uid c = false
    ∧ showEditButton c = false := by
  refine ⟨?_, ?_, ?_, ?_⟩ <;>
    simp [categoriesUpdatePolicyUsing, categoriesUpdatePolicyWithCheck,
      categoriesDeletePolicyUsing, showEditButton, hdef]

/-- C4 witness: the sample default category is immutable for a concrete
user. -/
theorem default_category_immutable_witness :
    exDefaultCategory.is_default = true
    ∧ categoriesUpdatePolicyUsing "u1" exDefaultCategory = false
    ∧ categoriesUpdatePolicyWithCheck "u1" exDefaultCategory = false
    ∧ categoriesDeletePolicyUsing "u1" exDefaultCategory = false
    ∧ showEditButton exDefaultCategory = false := by
  have h := default_category_immutable "u1" exDefaultCategory (by decide)
  exact ⟨by decide, h.1, h.2.1, h.2.2.1, h.2.2.2⟩

/-! ## C5: the insert trigger stamps ownership -/

/-- C5: whatever `user_id` the client supplies (including none), the
before-insert trigger overwrites it with `auth.uid()`, the insert policy
then accepts the row, and the stored row is the client row with
`user_id` equal to the authenticated identity. -/
theorem insert_stamps_user_id (db : List NewExpense) (authUid : String)
    (clientRow : NewExpense) :
    (set_user_id authUid clientRow).user_id = some authUid
    ∧ expensesInsertWithCheck authUid (set_user_id authUid clientRow) = true
    ∧ insertExpenseServer db authUid clientRow
        = db ++ [{ clientRow with user_id := some authUid }] := by
  refine ⟨rfl, ?_, ?_⟩
  · simp [expensesInsertWithCheck, set_user_id, sqlEqUid]
  · simp [insertExpenseServer, expensesInsertWithCheck, set_user_id, sqlEqUid]

/-! ## C6: client-side validation issues no request -/

/-- C6: submitting the expense form with amount, category or date missing
(empty), or the new-category form with a name or icon blank after
trimming, sets an error message and leaves the whole backend state
untouched — the handler returns before any insert. -/
theorem invalid_form_no_request (st st2 : BackendState) (authUid : String)
    (form : ExpenseFormState) (newId nid2 name icon : String)
    (h1 : form.amount = "" ∨ form.categoryId = "" ∨ form.date = "")
    (h2 : jsTrim name = "" ∨ jsTrim icon = "") :
    expenseFormHandleSubmit st authUid form newId
      = (st, some "Please fill in all required fields")
    ∧ handleAddCategory st2 authUid name icon nid2
      = (st2, some "Please fill in all fields") := by
  constructor
  · rcases h1 with h | h | h <;> simp [expenseFormHandleSubmit, h]
  · rcases h2 with h | h <;> simp [handleAddCategory, h]

/-- C6 witness: an expense form with a blank date and a category form
whose name is whitespace-only trigger the early return on the sample
state. -/
theorem invalid_form_no_request_witness :
    (("" : String) = "" ∨ ("food" : String) = "" ∨ ("" : String) = "")
    ∧ (jsTrim "   " = "" ∨ jsTrim "cart" = "")
    ∧ expenseFormHandleSubmit exState "u1"
        { amount := "", description := "d", categoryId := "food", date := "2025-03-01" } "e9"
      = (exState, some "Please fill in all required fields")
    ∧ handleAddCategory exState "u1" "   " "cart" "c9"
      = (exState, some "Please fill in all fields") := by
  have h := invalid_form_no_request exState exState "u1"
    { amount := "", description := "d", categoryId := "food", date := "2025-03-01" }
    "e9" "c9" "   " "cart" (Or.inl rfl) (Or.inl (by decide))
  exact ⟨Or.inl rfl, Or.inl (by decide), h.1, h.2⟩

/-! ## C8: deletion is a pure soft delete -/

/-- C8: the delete update is a soft delete: the table keeps its length
(no row is removed), every row's identifying and payload fields
(`id`, `amount`, `description`, `date`, `category_id`, `user_id`) are
unchanged at every position, and the only change is that the targeted
row gets `is_deleted = true` and `deleted_at = now` while every other
row is untouched. -/
theorem soft_delete_frame (expenses : List Expense) (targetId : String)
    (now : Nat) (i : Nat) :
    (softDeleteUpdate expenses targetId now).length = expenses.length
    ∧ ((softDeleteUpdate expenses targetId now)[i]?).map
        (fun e => (e.id, e.amount, e.description, e.date, e.category_id, e.user_id))
      = (expenses[i]?).map
        (fun e => (e.id, e.amount, e.description, e.date, e.category_id, e.user_id))
    ∧ (softDeleteUpdate expenses targetId now)[i]?
      = (expenses[i]?).map (fun e =>
          if e.id == targetId then
            { e with is_deleted := true, deleted_at := some now }
          else e) := by
  refine ⟨by simp [softDeleteUpdate], ?_, by simp [softDeleteUpdate]⟩
  simp only [softDeleteUpdate, List.getElem?_map, Option.map_map]
  cases h : expenses[i]? with
  | none => rfl
  | some e =>
    by_cases hid : e.id = targetId <;> simp [Function.comp, hid]

/-! ## C9: the delete record never reaches the activity-log view -/

/-- C9 (divergence witness): the delete handler writes its record to the
`activity_logs` (plural) table, while `ActivityLog.fetchActivities`
selects only from the `activity_log` (singular) table; hence the view's
content after a soft delete is identical to before, and concretely, on
the sample state the deleted-expense record is present in
`activity_logs` yet no "delete" entry is ever fetched by the view. -/
theorem delete_entry_missing_from_view (st : BackendState) (e : Expense)
    (catName authUid : String) (now : Nat) :
    fetchActivities (handleDelete st e catName authUid now) = fetchActivities st
    ∧ (handleDelete st e catName authUid now).activity_logs
      = st.activity_logs ++
        [{ action := "delete", entity_type := "expense", entity_id := e.id,
           details_amount := e.amount, details_description := e.description,
           details_category := some catName, user_id := authUid }]
    ∧ ((handleDelete exState exExpense "Groceries" "u1" 2).activity_logs.filter
        (fun r => r.action == "delete")).length = 1
    ∧ (fetchActivities (handleDelete exState exExpense "Groceries" "u1" 2)).filter
        (fun r => r.action == "delete") = [] := by
  exact ⟨rfl, rfl, by decide, by decide⟩

/-! ## C3: pagination -/

/-- C3 counterexample: on an empty result set (`count = 0`) the displayed
page count is not `ceil(count / 10) = 0` — the `if (count)` truthiness
guard skips the update and the state keeps its previous value (initially
1). -/
theorem pagination_totalPages_count_zero_cex :
    ¬ (updateTotalPages 1 0 = (0 + ITEMS_PER_PAGE - 1) / ITEMS_PER_PAGE) := by
  decide

/-- C3 as amended: requesting page N fetches exactly the rows with
zero-based indices in `[(N-1)*10, N*10)` of the filtered,
date-descending-ordered result set, and whenever the exact row count is
nonzero the displayed page total equals `ceil(count/10)` (a zero count
leaves the previous page total in place). -/
theorem pagination_page_slice (db : List Expense) (s t : Nat)
    (sc : Option String) (N i : Nat) (prev count : Nat) (hc : 0 < count) :
    (fetchExpensesPage db s t sc N)[i]?
      = (if i < ITEMS_PER_PAGE then
          (expensesQueryOrdered db s t sc)[(N - 1) * ITEMS_PER_PAGE + i]?
        else none)
    ∧ updateTotalPages prev count = (count + ITEMS_PER_PAGE - 1) / ITEMS_PER_PAGE := by
  constructor
  · by_cases hi : i < ITEMS_PER_PAGE
    · simp [fetchExpensesPage, List.getElem?_take, hi, List.getElem?_drop]
    · rw [if_neg hi]
      refine List.getElem?_eq_none ?_
      calc (((expensesQueryOrdered db s t sc).drop
              ((N - 1) * ITEMS_PER_PAGE)).take ITEMS_PER_PAGE).length
          ≤ ITEMS_PER_PAGE := List.length_take_le _ _
        _ ≤ i := Nat.le_of_not_lt hi
  · have : count ≠ 0 := Nat.pos_iff_ne_zero.mp hc
    simp [updateTotalPages, this]

/-- C3 witness: page 1 of the sample data returns the date-descending
head of the result set, and a count of 12 displays 2 pages. -/
theorem pagination_page_slice_witness :
    0 < 12
    ∧ ((fetchExpensesPage [exExpense, exExpense2] 20250301 20250331 none 1)[0]?
        = (if 0 < ITEMS_PER_PAGE then
            (expensesQueryOrdered [exExpense, exExpense2] 20250301 20250331 none)[(1 - 1) * ITEMS_PER_PAGE + 0]?
          else none)
      ∧ updateTotalPages 1 12 = (12 + ITEMS_PER_PAGE - 1) / ITEMS_PER_PAGE) := by
  exact ⟨by decide,
    pagination_page_slice [exExpense, exExpense2] 20250301 20250331 none 1 0 1 12 (by decide)⟩

/-! ## C7: over-budget flag -/

/-- C7 counterexample: with a persisted zero-amount budget row for a
category and a positive month total, the claim's iff fails — the row
exists and the total strictly exceeds the 0 budget, yet the JS
truthiness of `budget && total > budget` leaves the row unflagged. -/
theorem isOverBudget_zero_budget_cex :
    ¬ ((isOverBudget cexBudgets cexTotals "groceries" = true) ↔
        ((cexBudgets "groceries").isSome
          ∧ orZero (cexTotals "groceries") > orZero (cexBudgets "groceries"))) := by
  decide

/-- C7 as amended: a category is flagged over budget iff a budget row
with a nonzero amount exists for it and the current month's total of
non-deleted expenses strictly exceeds that amount; in particular a
category with budget 1000 and a 1200 month total is flagged. -/
theorem isOverBudget_iff (budgets totals : String → Option Int)
    (cid : String) :
    ((isOverBudget budgets totals cid = true) ↔
      (∃ b, budgets cid = some b ∧ b ≠ 0 ∧ orZero (totals cid) > b))
    ∧ isOverBudget (recSet emptyRec "groceries" 1000)
        (recSet emptyRec "groceries" 1200) "groceries" = true := by
  constructor
  · cases h : budgets cid with
    | none => simp [isOverBudget, h]
    | some b =>
      by_cases hb : b = 0
      · simp [isOverBudget, h, hb]
      · simp [isOverBudget, h, hb]
  · decide

/-! ## C1: month totals exclude soft-deleted expenses -/

theorem accumulateCategoryTotals_lookup (rows : List MonthExpenseRow)
    (acc : String → Option Int) (cid : String) :
    orZero (accumulateCategoryTotals rows acc cid)
      = orZero (acc cid)
        + ((rows.filter (fun r => r.category_id == cid)).map
            (fun r => r.amount)).sum := by
  induction rows generalizing acc with
  | nil => simp [accumulateCategoryTotals]
  | cons r rest ih =>
    have hstep : accumulateCategoryTotals (r :: rest) acc
        = accumulateCategoryTotals rest
            (recSet acc r.category_id (orZero (acc r.category_id) + r.amount)) := rfl
    rw [hstep, ih]
    by_cases h : r.category_id = cid
    · subst h
      simp [recSet, orZero, List.filter_cons]
      omega
    · have hne : ¬ (cid = r.category_id) := fun hh => h hh.symm
      have hb : (r.category_id == cid) = false := by simp [h]
      simp [recSet, List.filter_cons, hb, hne]

theorem monthQuery_cat_sum (db : List Expense) (s t : Nat) (cid : String) :
    (((monthExpensesQuery db s t).filter (fun r => r.category_id == cid)).map
        (fun r => r.amount)).sum
      = sumAmounts (db.filter (fun e =>
          !e.is_deleted && decide (s ≤ e.date) && decide (e.date ≤ t)
            && (e.category_id == cid))) := by
  induction db with
  | nil => rfl
  | cons e rest ih =>
    simp only [monthExpensesQuery, sumAmounts, List.filter_cons] at ih ⊢
    by_cases h1 : s ≤ e.date <;> by_cases h2 : e.date ≤ t <;>
      by_cases h3 : e.category_id = cid <;> cases hd : e.is_deleted <;>
      simp [h1, h2, h3, hd, List.filter_cons] at ih ⊢ <;> simp [ih]

theorem addExpensesToChart_spent (rows : List MonthExpenseRow)
    (data : String → Option ChartEntry) (cid : String) :
    chartSpent (addExpensesToChart rows data) cid
      = chartSpent data cid
        + ((rows.filter (fun r => r.category_id == cid)).map
            (fun r => r.amount)).sum := by
  induction rows generalizing data with
  | nil => simp [addExpensesToChart]
  | cons r rest ih =>
    have hstep : addExpensesToChart (r :: rest) data
        = addExpensesToChart rest
            (recSet data r.category_id
              { (match data r.category_id with
                 | some v => v
                 | none => { budget := 0, spent := 0 }) with
                spent := (match data r.category_id with
                 | some v => v
                 | none => { budget := 0, spent := 0 }).spent + r.amount }) := rfl
    rw [hstep, ih]
    by_cases h : r.category_id = cid
    · subst h
      cases hdc : data r.category_id <;>
        simp [recSet, chartSpent, List.filter_cons, hdc] <;> omega
    · have hne : ¬ (cid = r.category_id) := fun hh => h hh.symm
      have hb : (r.category_id == cid) = false := by simp [h]
      simp [recSet, chartSpent, List.filter_cons, hb, hne]

theorem initChartData_spent_zero (budgetRows : List BudgetRow) (cid : String) :
    chartSpent (initChartData budgetRows) cid = 0 := by
  suffices h : ∀ acc : String → Option ChartEntry, chartSpent acc cid = 0 →
      chartSpent (budgetRows.foldl
        (fun acc b => recSet acc b.category_id { budget := b.amount, spent := 0 })
        acc) cid = 0 by
    exact h emptyRec (by simp [chartSpent, emptyRec])
  induction budgetRows with
  | nil => intro acc h; exact h
  | cons b rest ih =>
    intro acc h
    refine ih _ ?_
    by_cases hc : cid = b.category_id
    · simp [recSet, chartSpent, hc]
    · simpa [recSet, chartSpent, hc] using h

/-- C1: every soft-deleted expense is excluded from the current-month
per-category totals used for budget-exceeded checks: both the
`categoryTotals` record of `ExpenseList` and the `spent` figures of
`BudgetPieChart` equal, for each category, the sum of the amounts of
exactly the non-deleted expenses of the month window in that
category. -/
theorem month_totals_exclude_deleted (db : List Expense)
    (monthStart today : Nat) (budgetRows : List BudgetRow) (cid : String) :
    orZero (categoryTotalsState db monthStart today cid)
      = sumAmounts (db.filter (fun e =>
          !e.is_deleted && decide (monthStart ≤ e.date)
            && decide (e.date ≤ today) && (e.category_id == cid)))
    ∧ chartSpent (chartMonthlyData budgetRows db monthStart today) cid
      = sumAmounts (db.filter (fun e =>
          !e.is_deleted && decide (monthStart ≤ e.date)
            && decide (e.date ≤ today) && (e.category_id == cid))) := by
  constructor
  · rw [categoryTotalsState, accumulateCategoryTotals_lookup, monthQuery_cat_sum]
    simp [emptyRec, orZero]
  · rw [chartMonthlyData, addExpensesToChart_spent, initChartData_spent_zero,
      monthQuery_cat_sum]
    omega

/-! ## C10: the statistics view counts soft-deleted expenses too -/

theorem statsStep_total (md : Nat → Option MonthlyStats) (r : StatsRow)
    (m : Nat) :
    monthTotal (statsStep md r) m
      = monthTotal md m + (if monthKey r.date = m then r.amount else 0) := by
  by_cases h : monthKey r.date = m
  · subst h
    cases hmd : md (monthKey r.date) <;>
      simp [statsStep, monthTotal, recSet, hmd]
  · have hm : ¬ (m = monthKey r.date) := fun hh => h hh.symm
    simp [statsStep, monthTotal, recSet, hm, h]

theorem statsStep_cat (md : Nat → Option MonthlyStats) (r : StatsRow)
    (m : Nat) (cid : String) :
    monthCatAmount (statsStep md r) m cid
      = monthCatAmount md m cid
        + (if monthKey r.date = m ∧ r.category_id = cid then r.amount else 0) := by
  by_cases h : monthKey r.date = m
  · subst h
    by_cases hc : r.category_id = cid
    · subst hc
      cases hmd : md (monthKey r.date) with
      | none => simp [statsStep, monthCatAmount, recSet, hmd, emptyRec]
      | some s =>
        cases hsc : s.categories r.category_id <;>
          simp [statsStep, monthCatAmount, recSet, hmd, hsc]
    · have hnc : ¬ (cid = r.category_id) := fun hh => hc hh.symm
      cases hmd : md (monthKey r.date) <;>
        simp [statsStep, monthCatAmount, recSet, hmd, hnc, hc, emptyRec]
  · have hm : ¬ (m = monthKey r.date) := fun hh => h hh.symm
    simp [statsStep, monthCatAmount, recSet, hm, h]

theorem statsFold_total (rows : List StatsRow)
    (md : Nat → Option MonthlyStats) (m : Nat) :
    monthTotal (rows.foldl statsStep md) m
      = monthTotal md m
        + ((rows.filter (fun r => monthKey r.date == m)).map
            (fun r => r.amount)).sum := by
  induction rows generalizing md with
  | nil => simp
  | cons r rest ih =>
    rw [List.foldl_cons, ih, statsStep_total]
    by_cases h : monthKey r.date = m <;>
      simp [List.filter_cons, h] <;> omega

theorem statsFold_cat (rows : List StatsRow)
    (md : Nat → Option MonthlyStats) (m : Nat) (cid : String) :
    monthCatAmount (rows.foldl statsStep md) m cid
      = monthCatAmount md m cid
        + ((rows.filter (fun r =>
              (monthKey r.date == m) && (r.category_id == cid))).map
            (fun r => r.amount)).sum := by
  induction rows generalizing md with
  | nil => simp
  | cons r rest ih =>
    rw [List.foldl_cons, ih, statsStep_cat]
    by_cases h : monthKey r.date = m <;> by_cases hc : r.category_id = cid <;>
      simp [List.filter_cons, h, hc] <;> omega

theorem statsQuery_filter_sum (db : List Expense) (catName : String → String)
    (s t : Nat) (p : StatsRow → Bool) :
    (((statsQueryResult db catName s t).filter p).map (fun r => r.amount)).sum
      = ((((db.filter (fun e => decide (s ≤ e.date) && decide (e.date ≤ t))).map
            (fun e => (⟨e.amount, e.date, e.category_id, catName e.category_id⟩ : StatsRow))).filter
            p).map (fun r => r.amount)).sum := by
  exact List.Perm.sum_eq (((sortDescBy_perm (fun r : StatsRow => r.date)
    _).filter p).map (fun r => r.amount))

theorem statsRows_total_sum (db : List Expense) (catName : String → String)
    (s t m : Nat) :
    ((((db.filter (fun e => decide (s ≤ e.date) && decide (e.date ≤ t))).map
          (fun e => (⟨e.amount, e.date, e.category_id, catName e.category_id⟩ : StatsRow))).filter
          (fun r => monthKey r.date == m)).map (fun r => r.amount)).sum
      = sumAmounts (db.filter (fun e =>
          decide (s ≤ e.date) && decide (e.date ≤ t)
            && (monthKey e.date == m))) := by
  induction db with
  | nil => rfl
  | cons e rest ih =>
    simp only [sumAmounts, List.filter_cons] at ih ⊢
    by_cases h1 : s ≤ e.date <;> by_cases h2 : e.date ≤ t <;>
      by_cases h3 : monthKey e.date = m <;>
      simp [h1, h2, h3, List.filter_cons] at ih ⊢ <;> simp [ih]

theorem statsRows_cat_sum (db : List Expense) (catName : String → String)
    (s t m : Nat) (cid : String) :
    ((((db.filter (fun e => decide (s ≤ e.date) && decide (e.date ≤ t))).map
          (fun e => (⟨e.amount, e.date, e.category_id, catName e.category_id⟩ : StatsRow))).filter
          (fun r => (monthKey r.date == m) && (r.category_id == cid))).map
        (fun r => r.amount)).sum
      = sumAmounts (db.filter (fun e =>
          decide (s ≤ e.date) && decide (e.date ≤ t)
            && (monthKey e.date == m) && (e.category_id == cid))) := by
  induction db with
  | nil => rfl
  | cons e rest ih =>
    simp only [sumAmounts, List.filter_cons] at ih ⊢
    by_cases h1 : s ≤ e.date <;> by_cases h2 : e.date ≤ t <;>
      by_cases h3 : monthKey e.date = m <;> by_cases h4 : e.category_id = cid <;>
      simp [h1, h2, h3, h4, List.filter_cons] at ih ⊢ <;> simp [ih]

theorem stats_month_total_eq (db : List Expense) (catName : String → String)
    (s t m : Nat) :
    monthTotal (fetchMonthlyStatsData db catName s t) m
      = sumAmounts (db.filter (fun e =>
          decide (s ≤ e.date) && decide (e.date ≤ t)
            && (monthKey e.date == m))) := by
  rw [fetchMonthlyStatsData, statsFold_total, statsQuery_filter_sum,
    statsRows_total_sum]
  simp [monthTotal, emptyRec]

theorem sumAmounts_markDeleted (db : List Expense) (p : Expense → Bool)
    (t : Nat)
    (hp : ∀ e, p { e with is_deleted := true, deleted_at := some t } = p e) :
    sumAmounts ((db.map
        (fun e => { e with is_deleted := true, deleted_at := some t })).filter p)
      = sumAmounts (db.filter p) := by
  induction db with
  | nil => rfl
  | cons e rest ih =>
    simp only [List.map_cons, List.filter_cons, hp, sumAmounts] at ih ⊢
    by_cases h : p e = true
    · simp [h, ih]
    · simp [h, ih]

theorem stats_month_cat_eq (db : List Expense) (catName : String → String)
    (s t m : Nat) (cid : String) :
    monthCatAmount (fetchMonthlyStatsData db catName s t) m cid
      = sumAmounts (db.filter (fun e =>
          decide (s ≤ e.date) && decide (e.date ≤ t)
            && (monthKey e.date == m) && (e.category_id == cid))) := by
  rw [fetchMonthlyStatsData, statsFold_cat, statsQuery_filter_sum,
    statsRows_cat_sum]
  simp [monthCatAmount, emptyRec]

/-- C10: the Statistics view's per-month and per-category sums include
soft-deleted expenses: the window query applies no `is_deleted` filter,
so each month's total (and each category breakdown inside it) is the sum
over ALL expenses of the window — in particular marking every expense of
the table soft-deleted leaves every statistics figure unchanged. -/
theorem stats_include_soft_deleted (db : List Expense)
    (catName : String → String) (s t m : Nat) (cid : String) :
    monthTotal (fetchMonthlyStatsData db catName s t) m
      = sumAmounts (db.filter (fun e =>
          decide (s ≤ e.date) && decide (e.date ≤ t)
            && (monthKey e.date == m)))
    ∧ monthCatAmount (fetchMonthlyStatsData db catName s t) m cid
      = sumAmounts (db.filter (fun e =>
          decide (s ≤ e.date) && decide (e.date ≤ t)
            && (monthKey e.date == m) && (e.category_id == cid)))
    ∧ monthTotal (fetchMonthlyStatsData
        (db.map (fun e => { e with is_deleted := true, deleted_at := some t }))
        catName s t) m
      = monthTotal (fetchMonthlyStatsData db catName s t) m := by
  refine ⟨stats_month_total_eq db catName s t m,
    stats_month_cat_eq db catName s t m cid, ?_⟩
  rw [stats_month_total_eq, stats_month_total_eq]
  exact sumAmounts_markDeleted db _ t (fun e => rfl)
